import Mathlib

set_option maxRecDepth 4000

/-!
Verification of the 15-puzzle engine and session controller implemented in
`personality-games/app/(tabs)/index.tsx` (the `PuzzleGame` component).

The board is the `tiles` array: 16 cells, values 1..15 plus the empty cell 0.
Stateful React hooks are embedded as explicit state passing over `GameState`;
the periodic timers become explicit events (`GameEvent`).  JS numbers that
hold the timer and score are embedded as `Int`; tile values as `Nat`.
-/

/-- The solved board built at the top of `startNewGame`:
`Array.from(..., (_, i) => i + 1)` followed by `push(0)`. -/
def solvedBoard : List Nat := [1, 2, 3, 4, 5, 6, 7, 8, 9, 10, 11, 12, 13, 14, 15, 0]

/-- `getNeighbors`: grid neighbours of index `i` on the 4x4 board, in the
push order of the source (row-up, row-down, col-left, col-right). -/
def getNeighbors (i : Nat) : List Nat :=
  let r := i / 4
  let c := i % 4
  (if r > 0 then [i - 4] else []) ++ (if r < 3 then [i + 4] else []) ++
    (if c > 0 then [i - 1] else []) ++ (if c < 3 then [i + 1] else [])

/-- The destructuring swap `[n[a], n[b]] = [n[b], n[a]]` on the tiles array. -/
def listSwap (l : List Nat) (a b : Nat) : List Nat :=
  (l.set a (l.getD b 0)).set b (l.getD a 0)

/-- JS `Array.prototype.every` with the element index, starting at index `j`. -/
def everyIdxFrom (p : Nat → Nat → Bool) (j : Nat) : List Nat → Bool
  | [] => true
  | v :: vs => p v j && everyIdxFrom p (j + 1) vs

/-- The win test inside `checkWin`: `t.slice(0,15).every((v,i)=>v===i+1)`. -/
def winCond (t : List Nat) : Bool :=
  everyIdxFrom (fun v i => v == i + 1) 0 (t.take 15)

/-- One iteration of the shuffle loop in `startNewGame`: locate the empty
cell, pick the neighbour indexed by the random draw `k` (the source draws
`Math.floor(Math.random()*n.length)`, a uniform index into `n`; we take the
draw modulo `n.length` so that every `k : Nat` denotes a valid draw), and
swap. -/
def shuffleStep (t : List Nat) (k : Nat) : List Nat :=
  let e := t.indexOf 0
  let n := getNeighbors e
  let r := n.getD (k % n.length) 0
  listSwap t e r

/-- `startNewGame`: 150 random adjacent swaps applied to the solved board;
`rand j` is the random draw of iteration `j`. -/
def startNewGame (rand : Nat → Nat) : List Nat :=
  (List.range 150).foldl (fun t j => shuffleStep t (rand j)) solvedBoard

/-- `TriviaQuestion` record (`{ q, options, correct }`). -/
structure TriviaQuestion where
  q : String
  options : List String
  correct : Nat
deriving DecidableEq

/-- `HighScore` record (`{ name, score, isEQMaster }`). -/
structure HighScore where
  name : String
  score : Int
  isEQMaster : Bool
deriving DecidableEq

/-- The state held by the `PuzzleGame` component in `useState` hooks, plus a
log of the `AsyncStorage.setItem` writes it performs. -/
structure GameState where
  tiles : List Nat
  timer : Int
  score : Int
  isFrozen : Bool
  isGodMode : Bool
  godSelection : Option Nat
  showTrivia : Bool
  currentQuestion : Option TriviaQuestion
  gameOver : Bool
  showCompletionModal : Bool
  isEQMaster : Bool
  playerName : String
  highScores : List HighScore
  showLeaderboard : Bool
  gameKey : String
  writes : List (String × List HighScore)
deriving DecidableEq

/-- Period of the countdown interval (`setInterval(..., 1000)`). -/
def tickIntervalMs : Nat := 1000

/-- Period of the trivia-trigger interval (`setInterval(..., 15000)`). -/
def triviaIntervalMs : Nat := 15000

/-- Duration of the god-mode override window (`setTimeout(..., 5000)`). -/
def overrideWindowMs : Nat := 5000

/-- `handleGameOver`: `setGameOver(true)`. -/
def handleGameOver (s : GameState) : GameState := { s with gameOver := true }

/-- `checkWin(t)`: if the board passes the win test, the score is set to
`1000 + timer * 10`; if the timer is still positive the EQ-Master flag and
completion modal are raised and the score is set to that total plus 500,
otherwise the game ends immediately. -/
def checkWin (t : List Nat) (s : GameState) : GameState :=
  if winCond t then
    let timeBonus := s.timer * 10
    let baseScore : Int := 1000
    let totalScore := baseScore + timeBonus
    let s1 := { s with score := totalScore }
    if 0 < s1.timer then
      { s1 with isEQMaster := true, showCompletionModal := true,
                score := totalScore + 500 }
    else
      handleGameOver s1
  else s

/-- `handleTilePress(i)`.  In god mode a tap on the empty cell returns
immediately; otherwise the first tap records a selection and the second tap
swaps unconditionally.  Outside god mode the tap swaps with the empty cell
only when adjacent to it, else it is a no-op. -/
def handleTilePress (i : Nat) (s : GameState) : GameState :=
  if s.isGodMode then
    if s.tiles.get? i = some 0 then s
    else
      match s.godSelection with
      | none => { s with godSelection := some i }
      | some sel =>
        let n := listSwap s.tiles sel i
        checkWin n { s with tiles := n, godSelection := none }
  else
    let e := s.tiles.indexOf 0
    if (getNeighbors e).contains i then
      let n := listSwap s.tiles e i
      checkWin n { s with tiles := n }
    else s

/-- `triggerTrivia`: draw question `k` (modulo the catalogue size, mirroring
the uniform `Math.floor(Math.random()*q.length)`) from the active category
catalogue `qs` and open the trivia modal. -/
def triggerTrivia (qs : List TriviaQuestion) (k : Nat) (s : GameState) : GameState :=
  { s with currentQuestion := qs.get? (k % qs.length), showTrivia := true }

/-- `handleTriviaAnswer(idx)`: close the modal; on a correct answer add 200
to the score and enter the frozen god-mode window, on a wrong answer (or a
missing current question, where the JS comparison with `undefined` is false)
apply the 15-second floor-at-zero timer penalty. -/
def handleTriviaAnswer (idx : Nat) (s : GameState) : GameState :=
  let s1 := { s with showTrivia := false }
  match s1.currentQuestion with
  | some question =>
    if idx = question.correct then
      { s1 with score := s1.score + 200, isFrozen := true, isGodMode := true }
    else
      { s1 with timer := max 0 (s1.timer - 15) }
  | none => { s1 with timer := max 0 (s1.timer - 15) }

/-- The 5-second `setTimeout` callback armed by a correct trivia answer:
unfreeze, leave god mode, clear the selection. -/
def godExpire (s : GameState) : GameState :=
  { s with isFrozen := false, isGodMode := false, godSelection := none }

/-- The 1-second countdown interval callback.  Its `useEffect` lists
`[timer, isFrozen, showTrivia, gameOver]` as dependencies, so the guard reads
the current state. -/
def tickStep (s : GameState) : GameState :=
  if 0 < s.timer ∧ s.isFrozen = false ∧ s.showTrivia = false ∧ s.gameOver = false then
    { s with timer := s.timer - 1 }
  else if s.timer ≤ 0 ∧ s.gameOver = false then handleGameOver s
  else s

/-- The 15-second trivia interval callback.  The interval is registered in
the mount effect whose dependency list is empty, so the closure captures the
values of `isFrozen`, `gameOver` and `timer` from the first render: the
guard is evaluated on the mount-time snapshot `s0`, not on the current state
`s`. -/
def triviaIntervalFire (s0 : GameState) (qs : List TriviaQuestion) (k : Nat)
    (s : GameState) : GameState :=
  if s0.isFrozen = false ∧ s0.gameOver = false ∧ 0 < s0.timer then
    triggerTrivia qs k s
  else s

/-- JS `String.prototype.trim`: strip leading and trailing whitespace. -/
def jsTrim (s : String) : String :=
  String.mk (((s.data.dropWhile Char.isWhitespace).reverse.dropWhile Char.isWhitespace).reverse)

/-- Stable insertion of one entry into a list already sorted by descending
score (the comparator `(a,b) => b.score - a.score`). -/
def insertScoreDesc (x : HighScore) : List HighScore → List HighScore
  | [] => [x]
  | y :: ys => if x.score < y.score then y :: insertScoreDesc x ys else x :: y :: ys

/-- The stable `sort((a,b) => b.score - a.score)` on leaderboard entries. -/
def sortByScoreDesc (l : List HighScore) : List HighScore :=
  l.foldr insertScoreDesc []

/-- The category-scoped persistence key `leaderboard_<gameKey>`. -/
def leaderboardKey (s : GameState) : String := "leaderboard_" ++ s.gameKey

/-- The leaderboard produced inside `submitScore`: append the new entry,
sort descending by score, keep the first five. -/
def newScoresOf (s : GameState) : List HighScore :=
  (sortByScoreDesc (s.highScores ++ [⟨s.playerName, s.score, s.isEQMaster⟩])).take 5

/-- `submitScore`: reject silently when the trimmed name is empty; otherwise
install the new leaderboard, switch to the leaderboard view and persist
under the category-scoped key. -/
def submitScore (s : GameState) : GameState :=
  if jsTrim s.playerName = "" then s
  else
    let newScores := newScoresOf s
    { s with highScores := newScores, showLeaderboard := true,
             writes := s.writes ++ [(leaderboardKey s, newScores)] }

/-- The events that can reach the session: the two interval callbacks, a tap
on one of the 16 rendered tiles, a trivia answer, the god-mode expiry
timeout, and a leaderboard submission. -/
inductive GameEvent where
  | tick
  | tilePress (i : Fin 16)
  | triviaFire (k : Nat)
  | triviaAnswer (idx : Nat)
  | godExpire
  | submit
deriving DecidableEq

/-- Dispatch one event against the current state `s`; `s0` is the mount-time
snapshot captured by the trivia interval closure and `qs` the trivia
catalogue of the active category. -/
def step (s0 : GameState) (qs : List TriviaQuestion) (s : GameState) :
    GameEvent → GameState
  | .tick => tickStep s
  | .tilePress i => handleTilePress i.val s
  | .triviaFire k => triviaIntervalFire s0 qs k s
  | .triviaAnswer idx => handleTriviaAnswer idx s
  | .godExpire => godExpire s
  | .submit => submitScore s

/-- The `useState` initial values of the component. -/
def baseState : GameState :=
  { tiles := solvedBoard, timer := 60, score := 0, isFrozen := false,
    isGodMode := false, godSelection := none, showTrivia := false,
    currentQuestion := none, gameOver := false, showCompletionModal := false,
    isEQMaster := false, playerName := "", highScores := [],
    showLeaderboard := false, gameKey := "mwape", writes := [] }

/-- The state right after the mount effect: shuffled board, loaded
leaderboard, all flags at their initial values. -/
def initState (rand : Nat → Nat) (loaded : List HighScore) : GameState :=
  { baseState with tiles := startNewGame rand, highScores := loaded }

/-- Run a session from mount through a list of events. -/
def run (rand : Nat → Nat) (loaded : List HighScore) (qs : List TriviaQuestion)
    (es : List GameEvent) : GameState :=
  es.foldl (step (initState rand loaded) qs) (initState rand loaded)

/-- The `mwape` category of `TRIVIA_DATA` (the other three categories are
analogous fixed tables and every theorem below is quantified over the
catalogue). -/
def mwape_questions : List TriviaQuestion :=
  [⟨"Standard House Music BPM?", ["80", "124", "160", "200"], 1⟩,
   ⟨"What DAW is known for its loop-based workflow?",
    ["Pro Tools", "Ableton Live", "Logic Pro", "FL Studio"], 1⟩,
   ⟨"Which frequency range typically contains bass?",
    ["20-250Hz", "250-500Hz", "2-4kHz", "8-16kHz"], 0⟩,
   ⟨"What is sidechain compression commonly used for?",
    ["Vocals", "Drums", "Creating pumping effect", "Mastering"], 2⟩,
   ⟨"Which is NOT a type of synthesis?",
    ["Subtractive", "Additive", "FM", "Digital Compression"], 3⟩,
   ⟨"What does LFO stand for?",
    ["Low Frequency Oscillator", "Linear Frequency Output", "Live Filter Option",
     "Loop Frequency Organizer"], 0⟩,
   ⟨"Which plugin is famous for vocal tuning?",
    ["Waves SSL", "Auto-Tune", "FabFilter Pro-Q", "Serum"], 1⟩,
   ⟨"What is the Nyquist frequency?",
    ["Sample rate/2", "Bit depth x2", "44.1kHz", "Maximum audible frequency"], 0⟩,
   ⟨"Which microphone type is best for studio vocals?",
    ["Dynamic", "Condenser", "Ribbon", "Lavalier"], 1⟩,
   ⟨"What does MIDI stand for?",
    ["Musical Instrument Digital Interface", "Music Input Digital Instrument",
     "Main Instrument Data Input", "Musical Interface Digital Input"], 0⟩]

/-- A concrete shuffle randomness: 74 left-right round trips of the empty
cell followed by two left steps, leaving the board two legal moves away from
solved. -/
def ksDemo : List Nat := (List.replicate 74 [1, 2]).flatten ++ [1, 1]

/-- The demo randomness as a stream. -/
def randDemo (j : Nat) : Nat := ksDemo.getD j 0

/-- The board the demo randomness produces: two legal moves from solved. -/
theorem startNewGame_randDemo :
    startNewGame randDemo = [1, 2, 3, 4, 5, 6, 7, 8, 9, 10, 11, 12, 13, 0, 14, 15] := by
  decide

/-! ### Generic list lemmas about the swap operation -/

theorem head_swap_perm (xs : List Nat) (m : Nat) (x : Nat) (hm : m < xs.length) :
    List.Perm (xs.getD m 0 :: xs.set m x) (x :: xs) := by
  induction xs generalizing m with
  | nil => simp at hm
  | cons y ys ih =>
    cases m with
    | zero => simpa using List.Perm.swap x y ys
    | succ k =>
      have hk : k < ys.length := by simpa using hm
      have h1 : List.Perm (ys.getD k 0 :: y :: ys.set k x) (y :: ys.getD k 0 :: ys.set k x) :=
        List.Perm.swap y (ys.getD k 0) (ys.set k x)
      have h2 : List.Perm (y :: ys.getD k 0 :: ys.set k x) (y :: x :: ys) :=
        (ih k hk).cons y
      have h3 : List.Perm (y :: x :: ys) (x :: y :: ys) := List.Perm.swap x y ys
      simpa using (h1.trans h2).trans h3

theorem listSwap_perm (l : List Nat) (a b : Nat) (ha : a < l.length) (hb : b < l.length) :
    List.Perm (listSwap l a b) l := by
  induction l generalizing a b with
  | nil => simp at ha
  | cons x xs ih =>
    cases a with
    | zero =>
      cases b with
      | zero => simp [listSwap]
      | succ m =>
        have hm : m < xs.length := by simpa using hb
        simpa [listSwap] using head_swap_perm xs m x hm
    | succ n =>
      cases b with
      | zero =>
        have hn : n < xs.length := by simpa using ha
        simpa [listSwap] using head_swap_perm xs n x hn
      | succ m =>
        have hn : n < xs.length := by simpa using ha
        have hm : m < xs.length := by simpa using hb
        simpa [listSwap] using (ih n m hn hm).cons x

theorem listSwap_length (l : List Nat) (a b : Nat) : (listSwap l a b).length = l.length := by
  simp [listSwap]

theorem indexOf_set_of_ne_zero (l : List Nat) (a v : Nat) (hv : v ≠ 0)
    (ha : l.get? a ≠ some 0) : (l.set a v).indexOf 0 = l.indexOf 0 := by
  induction l generalizing a with
  | nil => simp
  | cons x xs ih =>
    cases a with
    | zero =>
      have hx : x ≠ 0 := by simpa using ha
      show (v :: xs).indexOf 0 = (x :: xs).indexOf 0
      rw [List.indexOf_cons_ne xs hv, List.indexOf_cons_ne xs hx]
    | succ n =>
      have ha2 : xs.get? n ≠ some 0 := by simpa using ha
      show (x :: xs.set n v).indexOf 0 = (x :: xs).indexOf 0
      by_cases hx : x = 0
      · rw [List.indexOf_cons_eq _ hx, List.indexOf_cons_eq _ hx]
      · rw [List.indexOf_cons_ne _ hx, List.indexOf_cons_ne _ hx, ih n ha2]

theorem get?_of_lt (l : List Nat) (a : Nat) (ha : a < l.length) :
    l.get? a = some (l.getD a 0) := by
  rw [List.get?_eq_getElem?, List.getElem?_eq_getElem ha, List.getD_eq_getElem l 0 ha]

theorem indexOf_listSwap_of_ne_zero (l : List Nat) (a b : Nat)
    (ha : a < l.length) (hb : b < l.length)
    (hva : l.getD a 0 ≠ 0) (hvb : l.getD b 0 ≠ 0) :
    (listSwap l a b).indexOf 0 = l.indexOf 0 := by
  have hga : l.get? a ≠ some 0 := by rw [get?_of_lt l a ha]; simpa using hva
  have hgb : l.get? b ≠ some 0 := by rw [get?_of_lt l b hb]; simpa using hvb
  have h1 : (l.set a (l.getD b 0)).indexOf 0 = l.indexOf 0 :=
    indexOf_set_of_ne_zero l a _ hvb hga
  have hb2 : (l.set a (l.getD b 0)).get? b ≠ some 0 := by
    by_cases hab : a = b
    · subst hab
      have hset : (l.set a (l.getD a 0))[a]? = some (l.getD a 0) := by
        simp [List.getElem?_set_self, ha]
      rw [List.get?_eq_getElem?, hset]
      simpa using hvb
    · rw [List.get?_eq_getElem?, List.getElem?_set_ne hab, ← List.get?_eq_getElem?]
      exact hgb
  calc (listSwap l a b).indexOf 0
      = (l.set a (l.getD b 0)).indexOf 0 :=
        indexOf_set_of_ne_zero (l.set a (l.getD b 0)) b _ hva hb2
    _ = l.indexOf 0 := h1

/-! ### Facts about the neighbour table -/

theorem getNeighbors_length_pos (i : Nat) : 0 < (getNeighbors i).length := by
  have h4 : i % 4 < 4 := Nat.mod_lt _ (by omega)
  simp only [getNeighbors, List.length_append]
  split_ifs <;> simp_all

theorem getNeighbors_mem_lt (e j : Nat) (he : e < 16) (hj : j ∈ getNeighbors e) : j < 16 := by
  have h : ∀ e2, e2 < 16 → ∀ j2 ∈ getNeighbors e2, j2 < 16 := by decide
  exact h e he j hj

theorem getD_mem_of_pos (l : List Nat) (k : Nat) (h : 0 < l.length) :
    l.getD (k % l.length) 0 ∈ l := by
  have hk : k % l.length < l.length := Nat.mod_lt _ h
  rw [List.getD_eq_getElem l 0 hk]
  exact List.getElem_mem _

/-! ### The shuffle preserves the permutation invariant and is a legal walk -/

theorem solvedBoard_length : solvedBoard.length = 16 := by decide

theorem shuffleStep_perm (t : List Nat) (k : Nat) (h : List.Perm t solvedBoard) :
    List.Perm (shuffleStep t k) solvedBoard := by
  have hlen : t.length = 16 := by simpa using h.length_eq
  have h0 : (0 : Nat) ∈ t := h.mem_iff.mpr (by decide)
  have he : t.indexOf 0 < t.length := List.indexOf_lt_length.mpr h0
  have hnb : 0 < (getNeighbors (t.indexOf 0)).length := getNeighbors_length_pos _
  have hrmem := getD_mem_of_pos (getNeighbors (t.indexOf 0)) k hnb
  have hr16 : (getNeighbors (t.indexOf 0)).getD (k % (getNeighbors (t.indexOf 0)).length) 0 < 16 :=
    getNeighbors_mem_lt _ _ (by omega) hrmem
  exact (listSwap_perm t _ _ he (by omega)).trans h

theorem foldl_shuffleStep_perm (rand : Nat → Nat) (js : List Nat) (b : List Nat)
    (hb : List.Perm b solvedBoard) :
    List.Perm (js.foldl (fun t j => shuffleStep t (rand j)) b) solvedBoard := by
  induction js generalizing b with
  | nil => simpa using hb
  | cons j js ih => simpa using ih _ (shuffleStep_perm b (rand j) hb)

theorem startNewGame_perm (rand : Nat → Nat) :
    List.Perm (startNewGame rand) solvedBoard :=
  foldl_shuffleStep_perm rand (List.range 150) solvedBoard (List.Perm.refl _)

/-- One legal move of the sliding puzzle: swap the empty cell with one of its
grid neighbours (the board transformation of the non-god branch of
`handleTilePress`). -/
def LegalMove (b c : List Nat) : Prop :=
  ∃ i, i ∈ getNeighbors (b.indexOf 0) ∧ c = listSwap b (b.indexOf 0) i

/-- Reachability from the solved board by legal moves alone. -/
def ReachableFromSolved (b : List Nat) : Prop :=
  Relation.ReflTransGen LegalMove solvedBoard b

theorem shuffleStep_legal (t : List Nat) (k : Nat) : LegalMove t (shuffleStep t k) :=
  ⟨(getNeighbors (t.indexOf 0)).getD (k % (getNeighbors (t.indexOf 0)).length) 0,
    getD_mem_of_pos _ k (getNeighbors_length_pos _), rfl⟩

theorem foldl_shuffleStep_reachable (rand : Nat → Nat) (js : List Nat) (b : List Nat)
    (hb : ReachableFromSolved b) :
    ReachableFromSolved (js.foldl (fun t j => shuffleStep t (rand j)) b) := by
  induction js generalizing b with
  | nil => simpa using hb
  | cons j js ih => simpa using ih _ (hb.tail (shuffleStep_legal b (rand j)))

/-! ### Field-preservation facts for the session reducers -/

theorem checkWin_preserves (t : List Nat) (s : GameState) :
    (checkWin t s).tiles = s.tiles ∧ (checkWin t s).godSelection = s.godSelection ∧
      (checkWin t s).isGodMode = s.isGodMode ∧ (checkWin t s).timer = s.timer ∧
      (checkWin t s).isFrozen = s.isFrozen ∧ (checkWin t s).showTrivia = s.showTrivia ∧
      (checkWin t s).currentQuestion = s.currentQuestion := by
  unfold checkWin handleGameOver
  by_cases hw : winCond t <;> by_cases ht : (0 : Int) < s.timer <;> simp [hw, ht]

theorem checkWin_of_not_win (t : List Nat) (s : GameState) (h : winCond t = false) :
    checkWin t s = s := by
  unfold checkWin
  rw [h]
  simp

/-! ### The board invariant -/

/-- Invariant carried by every reachable session state: the board is a
permutation of the solved board, and any recorded god-mode selection is one
of the 16 cell indices. -/
def BoardInv (s : GameState) : Prop :=
  List.Perm s.tiles solvedBoard ∧ ∀ j, s.godSelection = some j → j < 16

theorem handleTilePress_BoardInv (i : Nat) (s : GameState) (hi : i < 16)
    (h : BoardInv s) : BoardInv (handleTilePress i s) := by
  obtain ⟨hperm, hsel⟩ := h
  have hlen : s.tiles.length = 16 := by simpa using hperm.length_eq
  unfold handleTilePress
  by_cases hg : s.isGodMode
  · rw [if_pos hg]
    by_cases h0 : s.tiles.get? i = some 0
    · rw [if_pos h0]
      exact ⟨hperm, hsel⟩
    · rw [if_neg h0]
      rcases hsc : s.godSelection with _ | sel
      · constructor
        · exact hperm
        · intro j hj
          have : j = i := by simpa using hj.symm
          omega
      · have hs16 := hsel sel hsc
        constructor
        · rw [(checkWin_preserves _ _).1]
          exact (listSwap_perm s.tiles sel i (by omega) (by omega)).trans hperm
        · intro j hj
          rw [(checkWin_preserves _ _).2.1] at hj
          simp at hj
  · rw [if_neg hg]
    have h0mem : (0 : Nat) ∈ s.tiles := hperm.mem_iff.mpr (by decide)
    have he : s.tiles.indexOf 0 < 16 := by
      have := List.indexOf_lt_length.mpr h0mem
      omega
    by_cases hc : (getNeighbors (s.tiles.indexOf 0)).contains i
    · rw [if_pos hc]
      constructor
      · rw [(checkWin_preserves _ _).1]
        exact (listSwap_perm s.tiles _ i (by omega) (by omega)).trans hperm
      · intro j hj
        rw [(checkWin_preserves _ _).2.1] at hj
        exact hsel j hj
    · rw [if_neg hc]
      exact ⟨hperm, hsel⟩

theorem step_BoardInv (s0 : GameState) (qs : List TriviaQuestion) (s : GameState)
    (e : GameEvent) (h : BoardInv s) : BoardInv (step s0 qs s e) := by
  obtain ⟨hperm, hsel⟩ := h
  cases e with
  | tick =>
    unfold step tickStep handleGameOver
    split_ifs <;> exact ⟨hperm, hsel⟩
  | tilePress i => exact handleTilePress_BoardInv i.val s i.isLt ⟨hperm, hsel⟩
  | triviaFire k =>
    unfold step triviaIntervalFire triggerTrivia
    split_ifs <;> exact ⟨hperm, hsel⟩
  | triviaAnswer idx =>
    unfold step handleTriviaAnswer
    rcases hq : s.currentQuestion with _ | question
    · exact ⟨hperm, hsel⟩
    · simp only [hq]
      split_ifs <;> exact ⟨hperm, hsel⟩
  | godExpire =>
    refine ⟨hperm, ?_⟩
    intro j hj
    simp [step, godExpire] at hj
  | submit =>
    unfold step submitScore
    split_ifs <;> exact ⟨hperm, hsel⟩

theorem foldl_step_BoardInv (s0 : GameState) (qs : List TriviaQuestion)
    (es : List GameEvent) (s : GameState) (h : BoardInv s) :
    BoardInv (es.foldl (step s0 qs) s) := by
  induction es generalizing s with
  | nil => simpa using h
  | cons e es ih => simpa using ih _ (step_BoardInv s0 qs s e h)

theorem mk_session_BoardInv (t : List Nat) (loaded : List HighScore)
    (h : List.Perm t solvedBoard) :
    BoardInv { baseState with tiles := t, highScores := loaded } := by
  constructor
  · exact h
  · intro j hj
    rw [show ({ baseState with tiles := t, highScores := loaded } : GameState).godSelection
          = none from rfl] at hj
    cases hj

theorem initState_BoardInv (rand : Nat → Nat) (loaded : List HighScore) :
    BoardInv (initState rand loaded) :=
  mk_session_BoardInv (startNewGame rand) loaded (startNewGame_perm rand)

/-- C4: every session state reachable from mount — through any sequence of
ticks, legal tile taps, god-mode forced swaps, trivia events, override
expiries and submissions — has a board that is a permutation of the 16
values 0..15, with the empty cell 0 occurring exactly once. -/
theorem board_permutation_invariant (rand : Nat → Nat) (loaded : List HighScore)
    (qs : List TriviaQuestion) (es : List GameEvent) :
    List.Perm (run rand loaded qs es).tiles solvedBoard ∧
      (run rand loaded qs es).tiles.count 0 = 1 := by
  have hInv : BoardInv (run rand loaded qs es) :=
    foldl_step_BoardInv _ qs es _ (initState_BoardInv rand loaded)
  refine ⟨hInv.1, ?_⟩
  rw [hInv.1.count_eq]
  decide

/-- C5: every board the shuffle can produce, whatever the 150 random draws
are, is reachable from the solved board by legal adjacent-swap moves alone
(hence solvable). -/
theorem shuffle_reachable_from_solved (rand : Nat → Nat) :
    ReachableFromSolved (startNewGame rand) :=
  foldl_shuffleStep_reachable rand (List.range 150) solvedBoard Relation.ReflTransGen.refl

/-! ### Score behaviour of each reducer -/

theorem tickStep_score (s : GameState) : (tickStep s).score = s.score := by
  unfold tickStep handleGameOver
  split_ifs <;> rfl

theorem triviaIntervalFire_score (s0 : GameState) (qs : List TriviaQuestion) (k : Nat)
    (s : GameState) : (triviaIntervalFire s0 qs k s).score = s.score := by
  unfold triviaIntervalFire triggerTrivia
  split_ifs <;> rfl

theorem godExpire_score (s : GameState) : (godExpire s).score = s.score := rfl

theorem submitScore_score (s : GameState) : (submitScore s).score = s.score := by
  unfold submitScore
  split_ifs <;> rfl

theorem handleTriviaAnswer_score_ge (idx : Nat) (s : GameState) :
    s.score ≤ (handleTriviaAnswer idx s).score := by
  unfold handleTriviaAnswer
  rcases hq : s.currentQuestion with _ | question
  · simp only [hq]
    exact le_refl _
  · simp only [hq]
    split_ifs
    · show s.score ≤ s.score + 200
      omega
    · exact le_refl _

theorem handleTilePress_score_or_win (i : Nat) (s : GameState) :
    s.score ≤ (handleTilePress i s).score ∨ winCond ((handleTilePress i s).tiles) = true := by
  unfold handleTilePress
  by_cases hg : s.isGodMode
  · rw [if_pos hg]
    by_cases h0 : s.tiles.get? i = some 0
    · rw [if_pos h0]
      left
      exact le_refl _
    · rw [if_neg h0]
      rcases hsc : s.godSelection with _ | sel
      · left
        exact le_refl _
      · dsimp only
        by_cases hw : winCond (listSwap s.tiles sel i) = true
        · right
          rw [(checkWin_preserves _ _).1]
          exact hw
        · left
          rw [checkWin_of_not_win _ _ (by simpa using hw)]
  · rw [if_neg hg]
    by_cases hc : (getNeighbors (s.tiles.indexOf 0)).contains i = true
    · rw [if_pos hc]
      by_cases hw : winCond (listSwap s.tiles (s.tiles.indexOf 0) i) = true
      · right
        rw [(checkWin_preserves _ _).1]
        exact hw
      · left
        rw [checkWin_of_not_win _ _ (by simpa using hw)]
    · rw [if_neg hc]
      left
      exact le_refl _

/-- C2 (amended): no event can decrease the score except a tile press whose
resulting board passes the win test — ticks, trivia triggers, trivia answers
(the wrong-answer penalty touches only the timer), override expiry and
submission never lower it; a winning press overwrites the score with the win
total, which may be lower than the accumulated score. -/
theorem score_monotonic_amended (s0 : GameState) (qs : List TriviaQuestion)
    (s : GameState) (e : GameEvent) :
    s.score ≤ (step s0 qs s e).score ∨
      ∃ i : Fin 16, e = GameEvent.tilePress i ∧ winCond ((step s0 qs s e).tiles) = true := by
  cases e with
  | tick => exact Or.inl (tickStep_score s).ge
  | tilePress i =>
    rcases handleTilePress_score_or_win i.val s with h | h
    · exact Or.inl h
    · exact Or.inr ⟨i, rfl, h⟩
  | triviaFire k => exact Or.inl (triviaIntervalFire_score s0 qs k s).ge
  | triviaAnswer idx => exact Or.inl (handleTriviaAnswer_score_ge idx s)
  | godExpire => exact Or.inl (godExpire_score s).ge
  | submit => exact Or.inl (submitScore_score s).ge

/-! ### Concrete session traces -/

/-- One trivia interruption answered correctly (question 0 of the catalogue,
whose correct option is index 1), with the ensuing override window allowed
to expire. -/
def triviaRound : List GameEvent :=
  [GameEvent.triviaFire 0, GameEvent.triviaAnswer 1, GameEvent.godExpire]

/-- Trace for the win-scoring counterexample: earn 200 trivia points, tick
down to 30 seconds, slide tile 14 into place. -/
def esC1win : List GameEvent :=
  triviaRound ++ List.replicate 30 GameEvent.tick ++ [GameEvent.tilePress 14]

def sC1before : GameState := run randDemo [] mwape_questions esC1win

def sC1after : GameState :=
  run randDemo [] mwape_questions (esC1win ++ [GameEvent.tilePress 15])

/-- C1 counterexample: a session that accumulated 200 trivia points and wins
at timer 30 ends with score 1800 = 1000 + 10*30 + 500, not with the claimed
200 + (1000 + 10*30) + 500 = 2000: the win handler overwrites the
accumulated score instead of adding to it. -/
theorem win_score_not_additive_counterexample :
    winCond sC1after.tiles = true ∧ sC1before.score = 200 ∧ sC1before.timer = 30 ∧
      sC1after.score = 1800 ∧
      sC1after.score ≠ sC1before.score + (1000 + 10 * 30) + 500 := by
  decide

/-- C1 (amended): when a move completes the board with timer `T`, the score
is set (not added) to `1000 + 10*T`, and when `T > 0` it is set to
`1000 + 10*T + 500` with the EQ-Master flag and completion modal raised;
at `T ≤ 0` the session ends at once. -/
theorem checkWin_overwrites_score (t : List Nat) (s : GameState) (hw : winCond t = true) :
    (checkWin t s).score = 1000 + s.timer * 10 + (if 0 < s.timer then 500 else 0) ∧
      (0 < s.timer →
        (checkWin t s).isEQMaster = true ∧ (checkWin t s).showCompletionModal = true) ∧
      (s.timer ≤ 0 → (checkWin t s).gameOver = true) := by
  unfold checkWin handleGameOver
  by_cases ht : (0 : Int) < s.timer <;> simp [hw, ht]

def winDemoState : GameState := { baseState with timer := 30, score := 200 }

theorem checkWin_overwrites_score_witness :
    (checkWin solvedBoard winDemoState).score = 1800 ∧
      (checkWin solvedBoard winDemoState).isEQMaster = true := by
  have h := checkWin_overwrites_score solvedBoard winDemoState (by decide)
  refine ⟨?_, (h.2.1 (by decide)).1⟩
  rw [h.1]
  decide

/-- Trace for the monotonicity counterexample: ten correctly answered trivia
rounds (score 2000), 59 ticks down to timer 1, then slide tile 14. -/
def esC2pre : List GameEvent :=
  (List.replicate 10 triviaRound).flatten ++ List.replicate 59 GameEvent.tick ++
    [GameEvent.tilePress 14]

def sC2before : GameState := run randDemo [] mwape_questions esC2pre

def sC2after : GameState :=
  run randDemo [] mwape_questions (esC2pre ++ [GameEvent.tilePress 15])

/-- C2 counterexample: the winning tile press drops the score from the
accumulated 2000 to 1510 = 1000 + 10*1 + 500. -/
theorem score_monotonic_counterexample :
    sC2before.score = 2000 ∧ sC2after.score = 1510 ∧ sC2after.score < sC2before.score := by
  decide

/-- The mount-time snapshot captured by the trivia interval closure of the
demo session. -/
def s0Demo : GameState := initState randDemo []

/-- The demo session after 61 ticks: the countdown expired and the session
is terminal. -/
def sTerminalDemo : GameState := run randDemo [] mwape_questions (List.replicate 61 GameEvent.tick)

/-- C3: after the session is terminal the 1-second tick is indeed a no-op,
but the 15-second trivia trigger is not: its guard reads the stale mount
snapshot (isFrozen=false, gameOver=false, timer=60), so it still opens the
trivia modal, mutating session state after game over. -/
theorem terminal_trivia_timer_fires :
    sTerminalDemo.gameOver = true ∧ sTerminalDemo.showTrivia = false ∧
      tickStep sTerminalDemo = sTerminalDemo ∧
      (triviaIntervalFire s0Demo mwape_questions 0 sTerminalDemo).showTrivia = true ∧
      triviaIntervalFire s0Demo mwape_questions 0 sTerminalDemo ≠ sTerminalDemo := by
  decide

/-! ### Exactness of the win test on invariant boards -/

theorem everyIdxFrom_true_getD (p : Nat → Nat → Bool) (l : List Nat) :
    ∀ j : Nat, everyIdxFrom p j l = true →
      ∀ i, i < l.length → p (l.getD i 0) (j + i) = true := by
  induction l with
  | nil =>
    intro j _ i hi
    simp at hi
  | cons v vs ih =>
    intro j h i hi
    simp only [everyIdxFrom, Bool.and_eq_true] at h
    cases i with
    | zero => simpa using h.1
    | succ n =>
      have h2 := ih (j + 1) h.2 n (by simpa using hi)
      have h3 : j + 1 + n = j + (n + 1) := by omega
      rw [h3] at h2
      simpa using h2

theorem winCond_true_getD (t : List Nat) (hw : winCond t = true) :
    ∀ i, i < 15 → i < t.length → t.getD i 0 = i + 1 := by
  intro i h15 hlen
  have hlen2 : i < (t.take 15).length := by
    simp only [List.length_take]
    omega
  have h := everyIdxFrom_true_getD (fun v k => v == k + 1) (t.take 15) 0 hw i hlen2
  have htake : (t.take 15).getD i 0 = t.getD i 0 := by
    rw [List.getD_eq_getElem (t.take 15) 0 hlen2, List.getD_eq_getElem t 0 hlen]
    exact List.getElem_take t
  rw [htake] at h
  simpa using h

theorem winCond_perm_eq (t : List Nat) (hp : List.Perm t solvedBoard)
    (hw : winCond t = true) : t = solvedBoard := by
  have hlen : t.length = 16 := by simpa using hp.length_eq
  have hget : ∀ i, i < 15 → t.getD i 0 = i + 1 := fun i hi =>
    winCond_true_getD t hw i hi (by omega)
  have h0 : (0 : Nat) ∈ t := hp.mem_iff.mpr (by decide)
  obtain ⟨j, hj, hj0⟩ := List.mem_iff_getElem.mp h0
  have hj15 : j = 15 := by
    by_contra hne
    have hjlt : j < 15 := by omega
    have hval := hget j hjlt
    rw [List.getD_eq_getElem t 0 hj] at hval
    omega
  apply List.ext_getElem (by rw [hlen]; rfl)
  intro i h1 h2
  by_cases hi : i < 15
  · have hgi := hget i hi
    rw [List.getD_eq_getElem t 0 h1] at hgi
    have hs : ∀ k, k < 15 → solvedBoard.getD k 0 = k + 1 := by decide
    have hsi := hs i hi
    rw [List.getD_eq_getElem solvedBoard 0 h2] at hsi
    omega
  · have hlen1 : i < 16 := by omega
    have hi15 : i = 15 := by omega
    subst hi15
    subst hj15
    have ht15 : t[15] = 0 := hj0
    rw [ht15]
    rfl

/-- C6: on every board satisfying the game invariant (a permutation of
0..15) the win test accepts exactly the solved board [1,...,15,0] — in
particular it rejects every invariant board whose empty cell is not at index
15 — and it rejects every board obtained from the solved board by one
adjacent swap. -/
theorem winCond_exact :
    (∀ t : List Nat, List.Perm t solvedBoard →
      (winCond t = true ↔ t = solvedBoard) ∧ (t.indexOf 0 ≠ 15 → winCond t = false)) ∧
      ∀ i, i < 16 → ∀ j ∈ getNeighbors i, winCond (listSwap solvedBoard i j) = false := by
  constructor
  · intro t hp
    constructor
    · constructor
      · exact winCond_perm_eq t hp
      · rintro rfl
        decide
    · intro hidx
      by_contra hw
      have hw2 : winCond t = true := by simpa using hw
      have heq := winCond_perm_eq t hp hw2
      subst heq
      exact hidx (by decide)
  · decide

theorem winCond_exact_witness :
    winCond solvedBoard = true ∧ winCond (listSwap solvedBoard 15 14) = false := by
  have h := winCond_exact
  exact ⟨((h.1 solvedBoard (List.Perm.refl _)).1).mpr rfl,
    h.2 15 (by decide) 14 (by decide)⟩

/-! ### Trivia answering -/

/-- C7: with a trivia question on screen, a correct answer adds exactly 200
to the score and opens the frozen god-mode override window (whose duration
constant is 5000 ms) without touching the timer; a wrong answer leaves the
score unchanged and sets the timer to `max 0 (timer - 15)`, so the timer
never goes below 0. -/
theorem handleTriviaAnswer_spec (s : GameState) (question : TriviaQuestion) (idx : Nat)
    (hq : s.currentQuestion = some question) :
    (idx = question.correct →
      handleTriviaAnswer idx s =
        { s with showTrivia := false, score := s.score + 200,
                 isFrozen := true, isGodMode := true } ∧
        overrideWindowMs = 5000) ∧
    (idx ≠ question.correct →
      handleTriviaAnswer idx s =
        { s with showTrivia := false, timer := max 0 (s.timer - 15) } ∧
        0 ≤ (handleTriviaAnswer idx s).timer ∧
        (handleTriviaAnswer idx s).score = s.score) := by
  constructor
  · intro hid
    have heq : handleTriviaAnswer idx s =
        { s with showTrivia := false, score := s.score + 200,
                 isFrozen := true, isGodMode := true } := by
      unfold handleTriviaAnswer
      dsimp only
      rw [hq]
      dsimp only
      rw [if_pos hid]
    exact ⟨heq, rfl⟩
  · intro hid
    have heq : handleTriviaAnswer idx s =
        { s with showTrivia := false, timer := max 0 (s.timer - 15) } := by
      unfold handleTriviaAnswer
      dsimp only
      rw [hq]
      dsimp only
      rw [if_neg hid]
    refine ⟨heq, ?_, by rw [heq]⟩
    rw [heq]
    exact le_max_left 0 _

def qDemo : TriviaQuestion := ⟨"Standard House Music BPM?", ["80", "124", "160", "200"], 1⟩

def triviaDemoState : GameState := { baseState with currentQuestion := some qDemo, timer := 5 }

theorem handleTriviaAnswer_spec_witness :
    (handleTriviaAnswer 0 triviaDemoState).timer = 0 ∧
      (handleTriviaAnswer 0 triviaDemoState).score = triviaDemoState.score ∧
      (handleTriviaAnswer 1 triviaDemoState).score = triviaDemoState.score + 200 ∧
      (handleTriviaAnswer 1 triviaDemoState).isGodMode = true := by
  have h0 := (handleTriviaAnswer_spec triviaDemoState qDemo 0 rfl).2 (by decide)
  have h1 := (handleTriviaAnswer_spec triviaDemoState qDemo 1 rfl).1 rfl
  refine ⟨?_, h0.2.2, ?_, ?_⟩
  · rw [h0.1]
    decide
  · rw [h1.1]
  · rw [h1.1]

/-! ### Leaderboard submission -/

theorem mem_insertScoreDesc (x y : HighScore) (l : List HighScore) :
    y ∈ insertScoreDesc x l ↔ y = x ∨ y ∈ l := by
  induction l with
  | nil => simp [insertScoreDesc]
  | cons z zs ih =>
    simp only [insertScoreDesc]
    split_ifs with h
    · simp only [List.mem_cons, ih]
      tauto
    · simp only [List.mem_cons]

theorem sorted_insertScoreDesc (x : HighScore) (l : List HighScore)
    (h : l.Sorted (fun a b => b.score ≤ a.score)) :
    (insertScoreDesc x l).Sorted (fun a b => b.score ≤ a.score) := by
  induction l with
  | nil => simp [insertScoreDesc]
  | cons z zs ih =>
    rw [List.sorted_cons] at h
    simp only [insertScoreDesc]
    split_ifs with hlt
    · rw [List.sorted_cons]
      constructor
      · intro b hb
        rw [mem_insertScoreDesc] at hb
        rcases hb with rfl | hb
        · omega
        · exact h.1 b hb
      · exact ih h.2
    · rw [List.sorted_cons]
      refine ⟨?_, List.sorted_cons.mpr h⟩
      intro b hb
      rcases List.mem_cons.mp hb with rfl | hb
      · omega
      · have := h.1 b hb
        omega

theorem sortByScoreDesc_sorted (l : List HighScore) :
    (sortByScoreDesc l).Sorted (fun a b => b.score ≤ a.score) := by
  induction l with
  | nil => simp [sortByScoreDesc]
  | cons x xs ih => exact sorted_insertScoreDesc x _ ih

/-- One leaderboard round of the testable example: a fresh session that
ended with the given name and score, submitted on top of the previously
persisted leaderboard. -/
def submitRound (lb : List HighScore) (p : String × Int) : List HighScore :=
  (submitScore { baseState with highScores := lb, playerName := p.1, score := p.2 }).highScores

/-- Six consecutive submissions with scores 500, 900, 300, 700, 100, 800. -/
def sixSubmissions : List HighScore :=
  [("A", (500 : Int)), ("B", 900), ("C", 300), ("D", 700), ("E", 100), ("F", 800)].foldl
    submitRound []

/-- C8: submission is rejected (identical state, no persistence write) iff
the trimmed name is empty; otherwise the new entry is appended, the list is
sorted descending by score, truncated to five entries, installed, shown, and
persisted under the category key — and six submissions with scores
[500, 900, 300, 700, 100, 800] persist exactly [900, 800, 700, 500, 300]. -/
theorem submitScore_spec :
    (∀ s : GameState,
      (jsTrim s.playerName = "" → submitScore s = s) ∧
      (jsTrim s.playerName ≠ "" →
        submitScore s =
          { s with highScores := newScoresOf s, showLeaderboard := true,
                   writes := s.writes ++ [(leaderboardKey s, newScoresOf s)] } ∧
        (newScoresOf s).length ≤ 5 ∧
        (newScoresOf s).Sorted (fun a b => b.score ≤ a.score) ∧
        submitScore s ≠ s)) ∧
      sixSubmissions.map HighScore.score = [900, 800, 700, 500, 300] := by
  constructor
  · intro s
    constructor
    · intro h
      unfold submitScore
      rw [if_pos h]
    · intro h
      have heq : submitScore s =
          { s with highScores := newScoresOf s, showLeaderboard := true,
                   writes := s.writes ++ [(leaderboardKey s, newScoresOf s)] } := by
        unfold submitScore
        rw [if_neg h]
      refine ⟨heq, List.length_take_le _ _, ?_, ?_⟩
      · exact (sortByScoreDesc_sorted _).sublist (List.take_sublist _ _)
      · intro hid
        rw [heq] at hid
        have hw := congrArg GameState.writes hid
        have hlenw := congrArg List.length hw
        simp at hlenw
  · decide

def submitDemoBlank : GameState := { baseState with playerName := "   ", score := 42 }

def submitDemoNamed : GameState := { baseState with playerName := "Ada", score := 42 }

theorem submitScore_spec_witness :
    submitScore submitDemoBlank = submitDemoBlank ∧
      (submitScore submitDemoNamed).highScores.map HighScore.score = [42] := by
  have hb := (submitScore_spec.1 submitDemoBlank).1 (by decide)
  have hn := ((submitScore_spec.1 submitDemoNamed).2 (by decide)).1
  refine ⟨hb, ?_⟩
  rw [hn]
  decide

/-! ### Legal moves outside the override window -/

/-- C9: outside the override window, tapping a position that is not adjacent
to the empty cell leaves the whole state (in particular the board) unchanged
— a silent no-op — while tapping an adjacent position swaps that cell with
the empty cell. -/
theorem handleTilePress_legal_spec (s : GameState) (i : Nat)
    (hg : s.isGodMode = false) (_h0 : (0 : Nat) ∈ s.tiles) :
    ((getNeighbors (s.tiles.indexOf 0)).contains i = false → handleTilePress i s = s) ∧
    ((getNeighbors (s.tiles.indexOf 0)).contains i = true →
      (handleTilePress i s).tiles = listSwap s.tiles (s.tiles.indexOf 0) i) := by
  constructor
  · intro hc
    unfold handleTilePress
    rw [if_neg (by simp [hg]), if_neg (by simpa using hc)]
  · intro hc
    unfold handleTilePress
    rw [if_neg (by simp [hg]), if_pos hc]
    exact (checkWin_preserves _ _).1

theorem handleTilePress_legal_spec_witness :
    handleTilePress 0 baseState = baseState ∧
      (handleTilePress 14 baseState).tiles = listSwap baseState.tiles 15 14 := by
  have h := handleTilePress_legal_spec baseState 0 rfl (by decide)
  have h2 := handleTilePress_legal_spec baseState 14 rfl (by decide)
  refine ⟨h.1 (by decide), ?_⟩
  rw [h2.2 (by decide)]
  decide

/-! ### The empty cell during the override window -/

/-- The god-mode selection invariant: any recorded selection points at one
of the 16 cells and that cell does not hold the empty value. -/
def GodSelOk (s : GameState) : Prop :=
  ∀ j, s.godSelection = some j → j < 16 ∧ s.tiles.getD j 0 ≠ 0

theorem god_press_step (s : GameState) (i : Nat) (hg : s.isGodMode = true)
    (hlen : s.tiles.length = 16) (hsel : GodSelOk s) (hi : i < 16) :
    (handleTilePress i s).tiles.indexOf 0 = s.tiles.indexOf 0 ∧
      (handleTilePress i s).isGodMode = true ∧
      (handleTilePress i s).tiles.length = 16 ∧ GodSelOk (handleTilePress i s) := by
  unfold handleTilePress
  rw [if_pos hg]
  by_cases h0 : s.tiles.get? i = some 0
  · rw [if_pos h0]
    exact ⟨rfl, hg, hlen, hsel⟩
  · rw [if_neg h0]
    rcases hsc : s.godSelection with _ | sel
    · dsimp only
      refine ⟨rfl, hg, hlen, ?_⟩
      intro j hj
      have hji : j = i := by simpa using hj.symm
      subst hji
      refine ⟨hi, ?_⟩
      intro hzero
      apply h0
      rw [get?_of_lt s.tiles j (by omega), hzero]
    · dsimp only
      obtain ⟨hsel16, hselnz⟩ := hsel sel hsc
      have hinz : s.tiles.getD i 0 ≠ 0 := by
        intro hzero
        apply h0
        rw [get?_of_lt s.tiles i (by omega), hzero]
      refine ⟨?_, ?_, ?_, ?_⟩
      · rw [(checkWin_preserves _ _).1]
        exact indexOf_listSwap_of_ne_zero s.tiles sel i (by omega) (by omega) hselnz hinz
      · rw [(checkWin_preserves _ _).2.2.1]
        exact hg
      · rw [(checkWin_preserves _ _).1, listSwap_length]
        exact hlen
      · intro j hj
        rw [(checkWin_preserves _ _).2.1] at hj
        simp at hj

theorem god_taps_indexOf (taps : List Nat) :
    ∀ s : GameState, s.isGodMode = true → s.tiles.length = 16 → GodSelOk s →
      (∀ i ∈ taps, i < 16) →
      (taps.foldl (fun st i => handleTilePress i st) s).tiles.indexOf 0 =
        s.tiles.indexOf 0 := by
  induction taps with
  | nil =>
    intro s _ _ _ _
    rfl
  | cons a as ih =>
    intro s hg hlen hsel htaps
    have hstep := god_press_step s a hg hlen hsel (htaps a (by simp))
    have hrest := ih (handleTilePress a s) hstep.2.1 hstep.2.2.1 hstep.2.2.2
      (fun i hi => htaps i (by simp [hi]))
    calc (as.foldl (fun st i => handleTilePress i st) (handleTilePress a s)).tiles.indexOf 0
        = (handleTilePress a s).tiles.indexOf 0 := hrest
      _ = s.tiles.indexOf 0 := hstep.1

/-- C10: during the override window a tap on the cell holding the empty
value is ignored outright (both as a selection tap and as a swap tap), and
no sequence of god-mode taps on the 16 cells ever moves the empty cell: its
index is invariant across the entire window. -/
theorem godmode_empty_cell_invariant (s : GameState) (taps : List Nat)
    (hg : s.isGodMode = true) (hlen : s.tiles.length = 16) (hsel : GodSelOk s)
    (htaps : ∀ i ∈ taps, i < 16) :
    (∀ i, s.tiles.get? i = some 0 → handleTilePress i s = s) ∧
      (taps.foldl (fun st i => handleTilePress i st) s).tiles.indexOf 0 =
        s.tiles.indexOf 0 := by
  constructor
  · intro i h0
    unfold handleTilePress
    rw [if_pos hg, if_pos h0]
  · exact god_taps_indexOf taps s hg hlen hsel htaps

def godDemoState : GameState := { baseState with isGodMode := true }

theorem godmode_empty_cell_invariant_witness :
    handleTilePress 15 godDemoState = godDemoState ∧
      ([0, 1].foldl (fun st i => handleTilePress i st) godDemoState).tiles.indexOf 0 =
        godDemoState.tiles.indexOf 0 := by
  have h := godmode_empty_cell_invariant godDemoState [0, 1] rfl (by decide)
    (fun j hj => nomatch hj) (by decide)
  exact ⟨h.1 15 (by decide), h.2⟩
